import Mathlib

/-!
Verification of the spatial transaction extractor of the UMHC finance
dashboard (source file js/ocr-processor.js, class PDFSpatialProcessor).

The JavaScript source is embedded shallowly:

* strings are lists of characters;
* page coordinates are exact rationals;
* currency amounts are integer numbers of pennies (the source manipulates
  IEEE doubles, but every amount it accepts has the shape d{1,6}.d{2}, and
  for such values and the bounds 0.01 and 50000 the double comparisons in
  the source agree exactly with rational arithmetic on pennies);
* JavaScript exceptions are an Except value;
* the host clock (new Date()) and the host-page configuration table
  CONFIG.CATEGORY_SUGGESTIONS are explicit parameters.

Each claim theorem is stated over these definitions.
-/

set_option autoImplicit false

attribute [local semireducible] Rat.ofScientific Rat.add Rat.sub Rat.mul Rat.inv

namespace UMHC

/-- Strings of the JavaScript source are modelled as lists of characters. -/
abbrev Str := List Char

/-- JavaScript regular-expression digit class: the ASCII digits. -/
def isDigitChar (c : Char) : Bool := 48 ≤ c.toNat && c.toNat ≤ 57

/-- JavaScript whitespace class, restricted to the ASCII whitespace
characters that occur in PDF text items. -/
def isWSChar (c : Char) : Bool := c = ' ' || c = '\t' || c = '\n' || c = '\r'

/-- JavaScript word-character class: letters, digits and underscore. -/
def isWordChar (c : Char) : Bool :=
  isDigitChar c || (65 ≤ c.toNat && c.toNat ≤ 90) || (97 ≤ c.toNat && c.toNat ≤ 122) || c = '_'

/-- String.prototype.trim: strip leading and trailing whitespace. -/
def jsTrim (l : Str) : Str := ((l.dropWhile isWSChar).reverse.dropWhile isWSChar).reverse

/-- String.prototype.toLowerCase. -/
def toLowerStr (l : Str) : Str := l.map Char.toLower

/-- String.prototype.includes: whether pat occurs as a contiguous substring. -/
def containsSeq (pat : Str) : Str → Bool
  | [] => pat.isEmpty
  | c :: r => pat.isPrefixOf (c :: r) || containsSeq pat r

/-- Numeric value of an ASCII digit character. -/
def digitVal (c : Char) : ℕ := c.toNat - 48

/-- Decimal value of a digit string (the numeric part of parseInt and parseFloat). -/
def digitsToNat (l : Str) : ℕ := l.foldl (fun a c => a * 10 + digitVal c) 0

/-- parseInt: value of the longest leading digit run; NaN (none) when there is
none.  Signs and leading whitespace cannot occur at the call sites modelled. -/
def jsParseInt (l : Str) : Option ℕ :=
  let ds := l.takeWhile isDigitChar
  if ds.isEmpty then none else some (digitsToNat ds)

/-- The ASCII digit character of a digit value. -/
def digitChar : ℕ → Char
  | 0 => '0' | 1 => '1' | 2 => '2' | 3 => '3' | 4 => '4'
  | 5 => '5' | 6 => '6' | 7 => '7' | 8 => '8' | 9 => '9'
  | _ => '?'

/-- Decimal rendering of a natural number, written with explicit fuel so that
the recursion is structural. -/
def natDigitsGo : ℕ → ℕ → Str
  | 0, _ => []
  | fuel + 1, n =>
    if n < 10 then [digitChar n] else natDigitsGo fuel (n / 10) ++ [digitChar (n % 10)]

/-- Decimal rendering of a natural number (the String(n) conversion). -/
def jsNatToStr (n : ℕ) : Str := natDigitsGo (n + 1) n

/-- String.prototype.padStart(2, zero). -/
def padStart2Zero (l : Str) : Str :=
  if 2 ≤ l.length then l else if l.length = 1 then '0' :: l else ['0', '0']

/-- A natural number rendered on (at least) two digits. -/
def pad2 (n : ℕ) : Str := padStart2Zero (jsNatToStr n)

/-- String.prototype.split with a single-character separator. -/
def splitChar (sep : Char) : Str → List Str
  | [] => [[]]
  | c :: r =>
    if c = sep then [] :: splitChar sep r
    else
      match splitChar sep r with
      | [] => [[c]]
      | p :: ps => (c :: p) :: ps

/-! ## Token Normalizer: dates (normalizeDate, source lines 421-480) -/

/-- Character substitutions of normalizeDate for character-recognition
confusions: O and o to 0; I, l and the vertical bar to 1; S to 5; Z to 2;
G to 6. -/
def ocrFixDateChar (c : Char) : Char :=
  if c = 'O' ∨ c = 'o' then '0'
  else if c = 'I' ∨ c = 'l' ∨ c = '|' then '1'
  else if c = 'S' then '5'
  else if c = 'Z' then '2'
  else if c = 'G' then '6'
  else c

/-- The cleaning pipeline of normalizeDate: trim, fix confusable characters,
drop whitespace, normalize the separators - and . to /, then drop every
character that is neither a digit nor a slash. -/
def cleanDateStr (s : Str) : Str :=
  ((((jsTrim s).map ocrFixDateChar).filter (fun c => !isWSChar c)).map
    (fun c => if c = '-' ∨ c = '.' then '/' else c)).filter
    (fun c => isDigitChar c || c = '/')

/-- Gregorian leap-year rule, as used by the JavaScript Date object. -/
def isLeapYear (y : ℕ) : Bool := y % 4 = 0 && (y % 100 ≠ 0 || y % 400 = 0)

/-- Number of days of month m (1 to 12) in year y. -/
def daysInMonth (y m : ℕ) : ℕ :=
  if m = 2 then (if isLeapYear y then 29 else 28)
  else if m = 4 ∨ m = 6 ∨ m = 9 ∨ m = 11 then 30
  else 31

/-- Days in the months of year y strictly before month m. -/
def daysBeforeMonth (y m : ℕ) : ℕ :=
  (List.range (m - 1)).foldl (fun a k => a + daysInMonth y (k + 1)) 0

/-- Linear day number of the civil date (y, m, d), with the day allowed to be
out of range.  new Date(y, m - 1, d) built by the source denotes exactly this
day, so comparisons of such Date values are comparisons of these numbers. -/
def civilDayNumber (y m : ℕ) (d : ℤ) : ℤ :=
  ((365 * (y - 1) + (y - 1) / 4 - (y - 1) / 100 + (y - 1) / 400 + daysBeforeMonth y m : ℕ) : ℤ) + d

/-- The current date, as the source reads it from the host clock (new Date()).
month is 1-based. -/
structure CivilDate where
  year : ℕ
  month : ℕ
  day : ℕ
deriving DecidableEq, Repr

/-- The canonical output format of normalizeDate: DD/MM/YYYY. -/
def renderDDMMYYYY (d m y : ℕ) : Str := pad2 d ++ '/' :: (pad2 m ++ '/' :: jsNatToStr y)

/-- normalizeDate (source lines 421-480), parameterized by the current date.
The check that new Date(year, month - 1, day) round-trips through getDate and
getMonth is, for day in [1, 31] and month in [1, 12], exactly the check
day nearer daysInMonth, and the two-years-in-the-future check compares day
numbers of the two dates. -/
def normalizeDate (now : CivilDate) (dateStr : Str) : Option Str :=
  if dateStr.isEmpty then none
  else
    match splitChar '/' (cleanDateStr dateStr) with
    | [p1, p2, p3] =>
      match jsParseInt p1, jsParseInt p2, jsParseInt p3 with
      | some day0, some month0, some year0 =>
        let year := if year0 < 100 then (if year0 > 50 then 1900 + year0 else 2000 + year0) else year0
        let dm := if month0 > 12 ∧ day0 ≤ 12 then (month0, day0) else (day0, month0)
        let day := dm.1
        let month := dm.2
        if day < 1 ∨ day > 31 ∨ month < 1 ∨ month > 12 ∨ year < 1900 ∨ year > 2100 then none
        else if daysInMonth year month < day then none
        else if civilDayNumber year month (day : ℤ) >
            civilDayNumber (now.year + 2) now.month (now.day : ℤ) then none
        else some (renderDDMMYYYY day month year)
      | _, _, _ => none
    | _ => none

/-! ## Token Normalizer: currency (parseCurrencyAmount, source lines 498-565)

Amounts are represented as signed pennies: the source value is pennies / 100.
The bound checks amount strictly below 0.01 and amount strictly above 50000 in
the source are exact on the accepted shape d{1,6}.d{2}, and correspond to
pennies below 1 and pennies above 5000000. -/

/-- Character substitutions of parseCurrencyAmount (the date list minus the
vertical bar). -/
def ocrFixAmtChar (c : Char) : Char :=
  if c = 'O' ∨ c = 'o' then '0'
  else if c = 'I' ∨ c = 'l' then '1'
  else if c = 'S' then '5'
  else if c = 'Z' then '2'
  else if c = 'G' then '6'
  else c

/-- The three currency symbols stripped by the source. -/
def isCurrencySym (c : Char) : Bool := c = '£' || c = '$' || c = '€'

/-- First cleaning stage of parseCurrencyAmount: trim, fix confusable
characters, strip currency symbols and whitespace. -/
def currencyCleaned1 (raw : Str) : Str :=
  ((jsTrim raw).map ocrFixAmtChar).filter (fun c => !(isCurrencySym c || isWSChar c))

/-- Negativity detection of parseCurrencyAmount, on the original input:
parentheses, a minus sign, or the words out or debit. -/
def currencyNegative (raw : Str) : Bool :=
  raw.contains '(' || raw.contains '-' ||
  containsSeq "out".toList (toLowerStr raw) ||
  containsSeq "debit".toList (toLowerStr raw)

/-- Second cleaning stage: drop parentheses and minus signs, then keep only
digits, dots and commas. -/
def currencyCleaned2 (raw : Str) : Str :=
  ((currencyCleaned1 raw).filter (fun c => !(c = '(' || c = ')' || c = '-'))).filter
    (fun c => isDigitChar c || c = '.' || c = ',')

/-- Whether the unanchored pattern digit+ dot digit matches somewhere. -/
def hasDigitDotDigit : Str → Bool
  | a :: b :: c :: r => (isDigitChar a && b = '.' && isDigitChar c) || hasDigitDotDigit (b :: c :: r)
  | _ => false

/-- Whether the unanchored pattern digit+ dot digit digit matches somewhere. -/
def hasDigitDot2 : Str → Bool
  | a :: b :: c :: d :: r =>
    (isDigitChar a && b = '.' && isDigitChar c && isDigitChar d) || hasDigitDot2 (b :: c :: d :: r)
  | _ => false

/-- Helper for lastDotAfterComma: scan a reversed string for the first dot or
comma. -/
def lastSepIsDotGo : Str → Bool
  | [] => false
  | c :: r => if c = '.' then true else if c = ',' then false else lastSepIsDotGo r

/-- Whether the last dot of the string occurs after its last comma (the
lastIndexOf comparison of the source). -/
def lastDotAfterComma (l : Str) : Bool := lastSepIsDotGo l.reverse

/-- String.prototype.replace with a plain comma pattern: replace the first
comma only. -/
def replaceFirstComma : Str → Str
  | [] => []
  | c :: r => if c = ',' then '.' :: r else c :: replaceFirstComma r

/-- Separator-resolution step of parseCurrencyAmount (source lines 527-545):
with both comma and dot, commas are stripped only when the last dot is
right of the last comma; with only commas, the single comma becomes a dot
when exactly two characters follow it, otherwise the input is rejected. -/
def resolveSeparators (l : Str) : Option Str :=
  if l.contains ',' && l.contains '.' then
    if lastDotAfterComma l then some (l.filter (fun c => !(c = ','))) else some l
  else if l.contains ',' && !l.contains '.' then
    let parts := splitChar ',' l
    if parts.length = 2 ∧ (parts.getD 1 []).length = 2 then some (replaceFirstComma l)
    else none
  else some l

/-- The anchored strict pattern of the source: 1 to 6 digits, a dot, exactly
2 digits. -/
def matchStrictCurrency (l : Str) : Bool :=
  let ip := l.takeWhile isDigitChar
  (decide (1 ≤ ip.length) && decide (ip.length ≤ 6)) &&
    (match l.dropWhile isDigitChar with
     | ['.', a, b] => isDigitChar a && isDigitChar b
     | _ => false)

/-- Value in pennies of a string accepted by matchStrictCurrency. -/
def centsOfMatched (l : Str) : ℕ :=
  digitsToNat (l.takeWhile isDigitChar) * 100 + digitsToNat ((l.dropWhile isDigitChar).drop 1)

/-- parseCurrencyAmount (source lines 498-565), result in signed pennies. -/
def parseCurrencyAmount (raw : Str) : Option ℤ :=
  if raw.isEmpty then none
  else if (currencyCleaned1 raw).isEmpty || !hasDigitDotDigit (currencyCleaned1 raw) then none
  else
    match resolveSeparators (currencyCleaned2 raw) with
    | none => none
    | some r =>
      if !matchStrictCurrency r then none
      else if centsOfMatched r < 1 ∨ centsOfMatched r > 5000000 then none
      else if currencyNegative raw then some (-(centsOfMatched r : ℤ))
      else some ((centsOfMatched r : ℤ))

/-! ## Description cleaning and keyword classification (source lines 483-489, 568-606) -/

/-- Helper for collapseWS; the flag records whether the previous character was
whitespace. -/
def collapseWSGo : Bool → Str → Str
  | _, [] => []
  | prevWS, c :: r =>
    if isWSChar c then (if prevWS then collapseWSGo true r else ' ' :: collapseWSGo true r)
    else c :: collapseWSGo false r

/-- Replace every run of whitespace by a single space. -/
def collapseWS (l : Str) : Str := collapseWSGo false l

/-- The character class kept by cleanDescription: word characters, whitespace,
currency symbols, dot, comma, parentheses and minus. -/
def descAllowedChar (c : Char) : Bool :=
  isWordChar c || isWSChar c || isCurrencySym c ||
  c = '.' || c = ',' || c = '(' || c = ')' || c = '-'

/-- cleanDescription (source lines 483-489): collapse whitespace, drop
disallowed characters, trim, cap at 100 characters. -/
def cleanDescription (l : Str) : Str :=
  (jsTrim ((collapseWS l).filter descAllowedChar)).take 100

/-- autoCategorizeFree (source lines 568-591).  CONFIG.CATEGORY_SUGGESTIONS is
host-page configuration and is passed as the table parameter; the source scans
its entries in order and falls back to a fixed keyword chain. -/
def autoCategorizeFree (table : List (Str × Str)) (description : Str) : Str :=
  let desc := toLowerStr description
  match table.find? (fun kv => containsSeq kv.1 desc) with
  | some kv => kv.2
  | none =>
    if containsSeq "membership".toList desc || containsSeq "member".toList desc then
      "Membership".toList
    else if containsSeq "ticket".toList desc || containsSeq "registration".toList desc then
      "Event Registration".toList
    else if containsSeq "transport".toList desc || containsSeq "fuel".toList desc ||
        containsSeq "minibus".toList desc then "Transport".toList
    else if containsSeq "accommodation".toList desc || containsSeq "hostel".toList desc ||
        containsSeq "hotel".toList desc then "Accommodation".toList
    else if containsSeq "equipment".toList desc || containsSeq "gear".toList desc then
      "Equipment".toList
    else if containsSeq "food".toList desc || containsSeq "catering".toList desc then
      "Food & Catering".toList
    else if containsSeq "insurance".toList desc then "Insurance".toList
    else if containsSeq "training".toList desc || containsSeq "course".toList desc then
      "Training".toList
    else "Uncategorized".toList

/-- extractEvent (source lines 594-606). -/
def extractEvent (description : Str) : Str :=
  let desc := toLowerStr description
  if containsSeq "welsh 3000".toList desc || containsSeq "welsh3000".toList desc then
    "Welsh 3000s 2025".toList
  else if containsSeq "snowdon".toList desc || containsSeq "snowdonia".toList desc then
    "Snowdonia Trip".toList
  else if containsSeq "peak district".toList desc || containsSeq "peaks".toList desc then
    "Peak District Trip".toList
  else if containsSeq "lake district".toList desc || containsSeq "lakes".toList desc then
    "Lake District Trip".toList
  else if containsSeq "fresher".toList desc || containsSeq "welcome".toList desc then
    "Freshers Events".toList
  else if containsSeq "social".toList desc || containsSeq "bbq".toList desc ||
      containsSeq "party".toList desc then "Social Events".toList
  else "General".toList

/-! ## Spatial data model (source lines 128-168) -/

/-- A positioned text fragment, as produced by extractSpatialText from the
PDF.js text layer.  Coordinates are exact rationals. -/
structure Item where
  text : Str
  x : ℚ
  y : ℚ
  width : ℚ
  height : ℚ
  fontSize : ℚ
deriving DecidableEq, Repr

/-- A header fragment recognized by detectColumnStructure. -/
structure Header where
  keyword : Str
  x : ℚ
  y : ℚ
  text : Str
deriving DecidableEq, Repr

/-- The inferred column structure of a page (the object returned by
detectColumnStructure, source lines 253-260). -/
structure ColumnInfo where
  hasValidStructure : Bool
  dateColumn : Option ℚ
  descColumn : Option ℚ
  cashInColumn : Option ℚ
  cashOutColumn : Option ℚ
  headers : List Header
deriving DecidableEq, Repr

/-- JavaScript truthiness of a nullable number: null, 0 and NaN are falsy
(NaN does not arise here). -/
def jsTruthyOpt (o : Option ℚ) : Bool :=
  match o with
  | none => false
  | some q => !(q = 0)

/-- The JavaScript expression o OR d for a nullable number o: the default is
used when o is null or 0. -/
def jsOrNum (o : Option ℚ) (d : ℚ) : ℚ :=
  match o with
  | none => d
  | some q => if q = 0 then d else q

/-! ## Column Structure Detector (source lines 209-302) -/

/-- The header keyword list of detectColumnStructure, in scan order. -/
def headerKeywords : List Str :=
  ["date".toList, "description".toList, "cash in".toList, "cash out".toList, "amount".toList]

/-- The first header keyword contained in a lowercased, trimmed fragment text
(the inner loop of detectColumnStructure breaks at the first hit). -/
def findHeaderKeyword (t : Str) : Option Str := headerKeywords.find? (fun k => containsSeq k t)

/-- The header fragments of a page, in fragment order. -/
def detectHeaders (items : List Item) : List Header :=
  items.filterMap (fun it =>
    match findHeaderKeyword (jsTrim (toLowerStr it.text)) with
    | some k => some { keyword := k, x := it.x, y := it.y, text := it.text }
    | none => none)

/-- The second loop of detectColumnStructure: each header whose keyword
contains date, description, cash in or cash out sets the corresponding column
position; a later header overwrites an earlier one.  Result order:
(date, description, cash in, cash out). -/
def assignColumns (headers : List Header) : Option ℚ × Option ℚ × Option ℚ × Option ℚ :=
  headers.foldl
    (fun acc h =>
      let d := if containsSeq "date".toList h.keyword then some h.x else acc.1
      let ds := if containsSeq "description".toList h.keyword then some h.x else acc.2.1
      let ci := if containsSeq "cash in".toList h.keyword then some h.x else acc.2.2.1
      let co := if containsSeq "cash out".toList h.keyword then some h.x else acc.2.2.2
      (d, ds, ci, co))
    (none, none, none, none)

/-- The strip applied before the currency-pattern tests on fragments
(remove currency symbols, commas and whitespace). -/
def currencyStripped (t : Str) : Str :=
  t.filter (fun c => !(isCurrencySym c || c = ',' || isWSChar c))

/-- Math.round: round half toward positive infinity. -/
def jsRound (q : ℚ) : ℤ := Int.floor (q + 1 / 2)

/-- The 30-unit x bucket of inferColumnPositions. -/
def bucketX (x : ℚ) : ℚ := ((jsRound (x / 30) : ℤ) : ℚ) * 30

/-- The distinct elements of a list, first occurrence kept (Object.keys of the
bucket map). -/
def uniqGo : List ℚ → List ℚ → List ℚ
  | [], _ => []
  | x :: r, seen => if seen.contains x then uniqGo r seen else x :: uniqGo r (x :: seen)

/-- Insertion into an ascending list. -/
def insertAsc (x : ℚ) : List ℚ → List ℚ
  | [] => [x]
  | y :: r => if x ≤ y then x :: y :: r else y :: insertAsc x r

/-- Ascending numeric sort (the sort((a, b) => a - b) of the source). -/
def sortAsc (l : List ℚ) : List ℚ := l.foldr insertAsc []

/-- inferColumnPositions (source lines 264-302): bucket the x positions of
currency-shaped fragments; one bucket is Cash Out, with two or more the two
rightmost buckets are Cash In and Cash Out.  Result order:
(cash in, cash out). -/
def inferColumnPositions (items : List Item) : Option ℚ × Option ℚ :=
  let amounts := items.filter (fun it => matchStrictCurrency (currencyStripped it.text))
  if amounts.isEmpty then (none, none)
  else
    let xPositions := sortAsc (uniqGo (amounts.map (fun a => bucketX a.x)) [])
    if xPositions.length = 1 then (none, some (xPositions.getD 0 0))
    else if 2 ≤ xPositions.length then
      (some (xPositions.getD (xPositions.length - 2) 0),
       some (xPositions.getD (xPositions.length - 1) 0))
    else (none, none)

/-- detectColumnStructure (source lines 210-261).  The inference fallback runs
when the cash-in or the cash-out position is falsy, and each inferred position
is taken over only when itself truthy. -/
def detectColumnStructure (items : List Item) : ColumnInfo :=
  let headers := detectHeaders items
  let cols := assignColumns headers
  let dateColumn := cols.1
  let descColumn := cols.2.1
  let cashInColumn0 := cols.2.2.1
  let cashOutColumn0 := cols.2.2.2
  let inferred :=
    if !jsTruthyOpt cashInColumn0 || !jsTruthyOpt cashOutColumn0 then
      let inf := inferColumnPositions items
      (if jsTruthyOpt inf.1 then inf.1 else cashInColumn0,
       if jsTruthyOpt inf.2 then inf.2 else cashOutColumn0)
    else (cashInColumn0, cashOutColumn0)
  let cashInColumn := inferred.1
  let cashOutColumn := inferred.2
  { hasValidStructure := dateColumn.isSome && (cashInColumn.isSome || cashOutColumn.isSome)
    dateColumn := dateColumn
    descColumn := descColumn
    cashInColumn := cashInColumn
    cashOutColumn := cashOutColumn
    headers := headers }

/-! ## Row Grouper (groupItemsIntoRows, source lines 304-329) -/

/-- The new-row test of groupItemsIntoRows: a fragment starts a new row when
there is no current row, or when its y differs from the y recorded for the
current row (the y of the first fragment of that row) by more than 10 units. -/
def startsNewRow (i : Item) (currentY : Option ℚ) : Bool :=
  match currentY with
  | none => true
  | some y => decide (|i.y - y| > 10)

/-- The walk of groupItemsIntoRows; cur is the current row and currentY the y
of its first fragment. -/
def groupGo : List Item → List Item → Option ℚ → List (List Item)
  | [], cur, _ => if cur.isEmpty then [] else [cur]
  | i :: rest, cur, currentY =>
    if startsNewRow i currentY then
      (if cur.isEmpty then [] else [cur]) ++ groupGo rest [i] (some i.y)
    else groupGo rest (cur ++ [i]) currentY

/-- groupItemsIntoRows (source lines 305-329). -/
def groupItemsIntoRows (items : List Item) : List (List Item) := groupGo items [] none

/-! ## Row-to-Transaction Parser (parseRowWithSpatial, source lines 332-397) -/

/-- Whether c is one of the three separators of the loose date pattern. -/
def isDateSep (c : Char) : Bool := c = '/' || c = '-' || c = '.'

/-- The remainders of a string after consuming one or two leading digits
(the possible matches of digit repeated 1 to 2 times). -/
def takeDigits12 (l : Str) : List Str :=
  match l with
  | [] => []
  | a :: r =>
    if isDigitChar a then
      match r with
      | b :: r2 => if isDigitChar b then [r, r2] else [r]
      | [] => [r]
    else []

/-- At least two digits follow (the tail d{2,4} of the loose date pattern;
for match existence two digits suffice). -/
def twoDigitsHere : Str → Bool
  | a :: b :: _ => isDigitChar a && isDigitChar b
  | _ => false

/-- A match of d{1,2} sep d{2,4} starts here. -/
def dateFromSecondNum (l : Str) : Bool :=
  (takeDigits12 l).any (fun r =>
    match r with
    | s :: r2 => isDateSep s && twoDigitsHere r2
    | [] => false)

/-- A match of the loose date pattern d{1,2} sep d{1,2} sep d{2,4} starts
here. -/
def dateAtStart (l : Str) : Bool :=
  (takeDigits12 l).any (fun r =>
    match r with
    | s :: r2 => isDateSep s && dateFromSecondNum r2
    | [] => false)

/-- The unanchored test of the loose date pattern (the .test call of the
source, line 335). -/
def hasDateToken : Str → Bool
  | [] => false
  | c :: r => dateAtStart (c :: r) || hasDateToken r

/-- The fragments of a row lying within 50 units of an amount column and
looking like an amount (source lines 350-353 and 360-363). -/
def amountCandidates (rowItems : List Item) (col : ℚ) : List Item :=
  rowItems.filter (fun it =>
    decide (|it.x - col| < 50) && hasDigitDot2 (currencyStripped it.text))

/-- The cash-in amount of a row (source lines 349-357): only read when the
cash-in column is truthy; the first candidate fragment is parsed. -/
def cashInOf (rowItems : List Item) (ci : ColumnInfo) : Option ℤ :=
  if jsTruthyOpt ci.cashInColumn then
    match amountCandidates rowItems (ci.cashInColumn.getD 0) with
    | [] => none
    | it :: _ => parseCurrencyAmount it.text
  else none

/-- The cash-out amount of a row (source lines 359-367). -/
def cashOutOf (rowItems : List Item) (ci : ColumnInfo) : Option ℤ :=
  if jsTruthyOpt ci.cashOutColumn then
    match amountCandidates rowItems (ci.cashOutColumn.getD 0) with
    | [] => none
    | it :: _ => parseCurrencyAmount it.text
  else none

/-- JavaScript truthiness of a nullable amount: null and 0 are falsy. -/
def jsTruthyAmt (o : Option ℤ) : Bool :=
  match o with
  | none => false
  | some v => !(v = 0)

/-- The JavaScript expression a OR b on nullable amounts. -/
def jsOrAmt (a b : Option ℤ) : Option ℤ :=
  match a with
  | none => b
  | some v => if v = 0 then b else some v

/-- Array.prototype.join with a single space. -/
def joinSpace : List Str → Str
  | [] => []
  | [s] => s
  | s :: r => s ++ ' ' :: joinSpace r

/-- The type tag of a transaction. -/
inductive TxType
  | Income
  | Expense
deriving DecidableEq, Repr

/-- The spatialInfo annotation of a transaction (source lines 388-392). -/
structure SpatialInfo where
  dateX : ℚ
  amountX : Option ℚ
  rowY : ℚ
deriving DecidableEq, Repr

/-- A transaction record (source lines 377-393).  amount is in pennies, after
the Math.abs of the source. -/
structure Transaction where
  date : Str
  description : Str
  amount : ℕ
  type : TxType
  category : Str
  event : Str
  reference : Str
  confidence : ℚ
  page : ℕ
  extractionMethod : Str
  spatialInfo : SpatialInfo
deriving DecidableEq, Repr

/-- The host-supplied context of a processing run: the current date and the
CONFIG.CATEGORY_SUGGESTIONS table. -/
structure Env where
  now : CivilDate
  catTable : List (Str × Str)

/-- The joined description text of a row (source lines 340-344): the text of
the fragments strictly between the date column plus 50 and the nearer amount
column minus 20, joined by spaces and trimmed. -/
def rowDescription (rowItems : List Item) (ci : ColumnInfo) : Str :=
  jsTrim (joinSpace ((rowItems.filter (fun it =>
    decide (it.x > jsOrNum ci.dateColumn 0 + 50) &&
    decide (it.x <
      min (jsOrNum ci.cashInColumn 9999) (jsOrNum ci.cashOutColumn 9999) - 20))).map
        (fun it => it.text)))

/-- parseRowWithSpatial (source lines 332-397): find a date fragment, gather
description fragments, read both amount windows, and build the record when an
amount is truthy and the raw description is longer than 2 characters. -/
def parseRowWithSpatial (env : Env) (rowItems : List Item) (ci : ColumnInfo) (page : ℕ) :
    Option Transaction :=
  match rowItems.find? (fun it => hasDateToken it.text) with
  | none => none
  | some dateItem =>
    if jsTruthyAmt (jsOrAmt (cashInOf rowItems ci) (cashOutOf rowItems ci)) &&
        decide (2 < (rowDescription rowItems ci).length) then
      match normalizeDate env.now dateItem.text with
      | none => none
      | some date =>
        some
          { date := date
            description := cleanDescription (rowDescription rowItems ci)
            amount :=
              ((jsOrAmt (cashInOf rowItems ci) (cashOutOf rowItems ci)).getD 0).natAbs
            type :=
              if jsTruthyAmt (cashInOf rowItems ci) then TxType.Income else TxType.Expense
            category := autoCategorizeFree env.catTable (rowDescription rowItems ci)
            event := extractEvent (rowDescription rowItems ci)
            reference := []
            confidence := 0.9
            page := page
            extractionMethod := "spatial".toList
            spatialInfo :=
              { dateX := dateItem.x
                amountX :=
                  if jsTruthyAmt (cashInOf rowItems ci) then ci.cashInColumn
                  else ci.cashOutColumn
                rowY := dateItem.y } }
    else none

/-- isValidTransaction (source lines 629-635).  The amount field is a number
built by Math.abs, so the null test of the source is vacuous; positivity is
the remaining content. -/
def isValidTransaction (t : Transaction) : Bool :=
  !t.date.isEmpty && !t.description.isEmpty && decide (2 < t.description.length) &&
    decide (0 < t.amount)

/-! ## Extraction Orchestrator (source lines 46-125 and 171-207) -/

/-- The per-page extraction loop body of extractTransactionsWithSpatial
(source lines 184-194): group the fragments into rows, parse each row,
keep the valid transactions. -/
def pageTransactions (env : Env) (items : List Item) (ci : ColumnInfo) (page : ℕ) :
    List Transaction :=
  (groupItemsIntoRows items).filterMap (fun row =>
    match parseRowWithSpatial env row ci page with
    | some t => if isValidTransaction t then some t else none
    | none => none)

/-- The error message thrown for a page without usable column structure
(source line 181). -/
def noStructureMsg (page : ℕ) : Str :=
  "Page ".toList ++ jsNatToStr page ++
    " does not contain a recognizable transaction table structure. Please ensure the PDF contains properly formatted financial data with columns.".toList

/-- The structure a page is parsed with (source lines 174-177): the carried
structure when it is valid, otherwise the structure detected on this page. -/
def usedColumnInfo (items : List Item) (master : Option ColumnInfo) : ColumnInfo :=
  match master with
  | none => detectColumnStructure items
  | some m => if m.hasValidStructure then m else detectColumnStructure items

/-- extractTransactionsWithSpatial (source lines 171-207): reuse the carried
structure when it is valid, otherwise detect from this page; throw when the
resulting structure is invalid; otherwise parse all rows and return the
transactions together with the structure that was used. -/
def extractTransactionsWithSpatial (env : Env) (items : List Item) (pageNum : ℕ)
    (master : Option ColumnInfo) : Except Str (List Transaction × ColumnInfo) :=
  if !(usedColumnInfo items master).hasValidStructure then Except.error (noStructureMsg pageNum)
  else
    Except.ok (pageTransactions env items (usedColumnInfo items master) pageNum,
      usedColumnInfo items master)

/-- The error message thrown for a page without extractable text
(source line 82). -/
def noTextMsg (page : ℕ) : Str :=
  "Page ".toList ++ jsNatToStr page ++
    " contains no extractable text with coordinate data. This PDF may be image-based or corrupted.".toList

/-- The page loop of processPDF (source lines 66-97): fail on a page with no
positioned text, run the spatial extraction (its exceptions propagate), update
the carried structure from the structure the page used when that is valid,
and accumulate the transactions. -/
def processPagesGo (env : Env) :
    List (List Item) → ℕ → Option ColumnInfo → List Transaction →
      Except Str (List Transaction)
  | [], _, _, acc => Except.ok acc
  | items :: rest, pageNum, master, acc =>
    if items.isEmpty then Except.error (noTextMsg pageNum)
    else
      match extractTransactionsWithSpatial env items pageNum master with
      | Except.error e => Except.error e
      | Except.ok (ts, ci) =>
        processPagesGo env rest (pageNum + 1)
          (if ci.hasValidStructure then some ci else master) (acc ++ ts)

/-- The prefix prepended by the catch-all of processPDF (source line 123). -/
def pdfFailPrefix : Str := "PDF processing failed: ".toList

/-- processPDF (source lines 46-125), taking the per-page positioned-fragment
lists produced by the external page-reading step.  At most 10 pages are
processed; any exception of the loop is rethrown with a prefix. -/
def processPDF (env : Env) (pages : List (List Item)) : Except Str (List Transaction) :=
  match processPagesGo env (pages.take 10) 1 none [] with
  | Except.ok ts => Except.ok ts
  | Except.error e => Except.error (pdfFailPrefix ++ e)

/-! ## Deduplication helper (removeDuplicateTransactions, source lines 638-648) -/

/-- JavaScript rendering of the amount number pennies / 100 inside a template
string: the shortest decimal form, so trailing zero decimals are dropped. -/
def jsAmountToStr (cents : ℕ) : Str :=
  let ip := jsNatToStr (cents / 100)
  if cents % 100 = 0 then ip
  else if cents % 10 = 0 then ip ++ '.' :: [digitChar (cents / 10 % 10)]
  else ip ++ '.' :: [digitChar (cents / 10 % 10), digitChar (cents % 10)]

/-- The composite deduplication key of a transaction (source line 641):
date, amount and the first 20 characters of the description, joined by
hyphens. -/
def dedupKey (t : Transaction) : Str :=
  t.date ++ '-' :: (jsAmountToStr t.amount ++ '-' :: t.description.take 20)

/-- The filter loop of removeDuplicateTransactions with its seen set. -/
def removeDupGo : List Transaction → List Str → List Transaction
  | [], _ => []
  | t :: r, seen =>
    if seen.contains (dedupKey t) then removeDupGo r seen
    else t :: removeDupGo r (dedupKey t :: seen)

/-- removeDuplicateTransactions (source lines 638-648): keep the first
transaction of each composite key.  processPDF never calls it. -/
def removeDuplicateTransactions (ts : List Transaction) : List Transaction :=
  removeDupGo ts []

deriving instance DecidableEq for Except

set_option maxRecDepth 40000

/-! ## Concrete inputs used to evaluate the definitions -/

/-- The environment of the concrete examples: the clock reads 11 October 2026
and the host page supplies no CONFIG.CATEGORY_SUGGESTIONS table. -/
def envW : Env := { now := ⟨2026, 10, 11⟩, catTable := [] }

/-- A positioned fragment with the given text and coordinates. -/
def mkItem (t : String) (x y : ℚ) : Item :=
  { text := t.toList, x := x, y := y, width := 10, height := 10, fontSize := 10 }

/-- A page holding a Date / Cash Out header line and two identical
transaction rows (same date, amount and description, different y). -/
def hdrDate : Item := mkItem "Date" 0 1000
def hdrCashOut : Item := mkItem "Cash Out" 300 1000
def rowDate1 : Item := mkItem "01/02/2024" 0 900
def rowDesc1 : Item := mkItem "Taxi ride" 100 900
def rowAmt1 : Item := mkItem "12.34" 300 900
def rowDate2 : Item := mkItem "01/02/2024" 0 800
def rowDesc2 : Item := mkItem "Taxi ride" 100 800
def rowAmt2 : Item := mkItem "12.34" 300 800

def pageDup : List Item :=
  [hdrDate, hdrCashOut, rowDate1, rowDesc1, rowAmt1, rowDate2, rowDesc2, rowAmt2]

/-- A default transaction record, used only as the fallback of list lookups. -/
def tx0 : Transaction :=
  { date := [], description := [], amount := 0, type := TxType.Expense, category := [],
    event := [], reference := [], confidence := 0, page := 0, extractionMethod := [],
    spatialInfo := { dateX := 0, amountX := none, rowY := 0 } }

/-- The transaction list of a processPDF result (empty on error). -/
def exList (r : Except Str (List Transaction)) : List Transaction := r.toOption.getD []

/-- The document made of the single page pageDup, processed. -/
def dupOut : List Transaction := exList (processPDF envW [pageDup])

def txD1 : Transaction := dupOut.getD 0 tx0

def txD2 : Transaction := dupOut.getD 1 tx0

/-- A fragment with readable text but no table structure around it. -/
def itemNoStruct : Item := mkItem "hello" 0 0

/-- First page of the two-page example: Date and Cash In headers at x 10 and
x 200. -/
def pageC3a : List Item := [mkItem "Date" 10 1000, mkItem "Cash In" 200 1000]

/-- Second page of the two-page example: same headers, Cash In now at x 500,
so its own detection differs from the first page. -/
def pageC3b : List Item := [mkItem "Date" 10 1000, mkItem "Cash In" 500 1000]

/-- The column structure detected on pageC3a. -/
def ciA : ColumnInfo := detectColumnStructure pageC3a

/-- The four fragments of the row-grouping example, in the sorted order
(y descending; x ascending breaks ties between the three near y = 100). -/
def itemA250 : Item := mkItem "a" 0 250
def itemB1004 : Item := mkItem "b" 1 100.4
def itemC1002 : Item := mkItem "c" 2 100.2
def itemD100 : Item := mkItem "d" 3 100

/-- A real calendar date: month in range, day within the length of that month
in that year (the validity notion quoted by the date round-trip claim). -/
def isRealDate (d m y : ℕ) : Bool :=
  decide (1 ≤ m) && decide (m ≤ 12) && decide (1 ≤ d) && decide (d ≤ daysInMonth y m)

/-! ## Helper lemmas -/

/-- Inversion of a successful parseCurrencyAmount: the resolved string matched
the strict pattern and the pennies lie between 1 and 5000000. -/
theorem parseCurrencyAmount_inv {raw : Str} {v : ℤ} (h : parseCurrencyAmount raw = some v) :
    ∃ r, resolveSeparators (currencyCleaned2 raw) = some r ∧ matchStrictCurrency r = true ∧
      v.natAbs = centsOfMatched r ∧ 1 ≤ centsOfMatched r ∧ centsOfMatched r ≤ 5000000 := by
  unfold parseCurrencyAmount at h
  split at h
  · exact absurd h (by simp)
  split at h
  · exact absurd h (by simp)
  split at h
  · exact absurd h (by simp)
  rename_i r heq
  split at h
  · exact absurd h (by simp)
  rename_i hmatch
  split at h
  · exact absurd h (by simp)
  rename_i hrange
  rw [not_or] at hrange
  obtain ⟨h1, h2⟩ := hrange
  refine ⟨r, heq, by simpa using hmatch, ?_, by omega, by omega⟩
  split at h
  · cases h
    simp
  · cases h
    simp

/-- A successful parseCurrencyAmount yields between 1 and 5000000 pennies in
magnitude. -/
theorem parseCurrencyAmount_range {raw : Str} {v : ℤ} (h : parseCurrencyAmount raw = some v) :
    1 ≤ v.natAbs ∧ v.natAbs ≤ 5000000 := by
  obtain ⟨r, -, -, he, h1, h2⟩ := parseCurrencyAmount_inv h
  omega

/-- parseCurrencyAmount never returns the number 0. -/
theorem parseCurrencyAmount_ne_zero {raw : Str} {v : ℤ} (h : parseCurrencyAmount raw = some v) :
    v ≠ 0 := by
  have := (parseCurrencyAmount_range h).1
  omega

/-- The cash-in window value of a row comes from parseCurrencyAmount. -/
theorem cashInOf_parse {row : List Item} {ci : ColumnInfo} {v : ℤ}
    (h : cashInOf row ci = some v) : ∃ raw, parseCurrencyAmount raw = some v := by
  unfold cashInOf at h
  split at h
  · split at h
    · exact absurd h (by simp)
    · exact ⟨_, h⟩
  · exact absurd h (by simp)

/-- The cash-out window value of a row comes from parseCurrencyAmount. -/
theorem cashOutOf_parse {row : List Item} {ci : ColumnInfo} {v : ℤ}
    (h : cashOutOf row ci = some v) : ∃ raw, parseCurrencyAmount raw = some v := by
  unfold cashOutOf at h
  split at h
  · split at h
    · exact absurd h (by simp)
    · exact ⟨_, h⟩
  · exact absurd h (by simp)

/-- Boolean containment of a character is membership. -/
theorem containsB_iff {c : Char} {l : Str} : l.contains c = true ↔ c ∈ l := by
  simp

/-- A string in which the pattern digit+ dot digit matches contains a dot. -/
theorem hasDigitDotDigit_dot : ∀ (l : Str), hasDigitDotDigit l = true → l.contains '.' = true
  | a :: b :: c :: r, h => by
    simp only [hasDigitDotDigit, Bool.or_eq_true, Bool.and_eq_true, decide_eq_true_eq] at h
    rcases h with ⟨⟨-, hb⟩, -⟩ | h
    · rw [containsB_iff]
      simp [hb]
    · have := hasDigitDotDigit_dot (b :: c :: r) h
      rw [containsB_iff] at this ⊢
      simp only [List.mem_cons] at this ⊢
      tauto

/-- A string accepted by the strict currency pattern contains no comma. -/
theorem matchStrict_no_comma {l : Str} (h : matchStrictCurrency l = true) :
    l.contains ',' = false := by
  unfold matchStrictCurrency at h
  simp only [Bool.and_eq_true] at h
  obtain ⟨-, h⟩ := h
  split at h
  · rename_i a b heq
    simp only [Bool.and_eq_true] at h
    obtain ⟨ha, hb⟩ := h
    rw [← Bool.not_eq_true, containsB_iff]
    intro hmem
    rw [← List.takeWhile_append_dropWhile (p := isDigitChar) (l := l), heq] at hmem
    rcases List.mem_append.1 hmem with hmem | hmem
    · have := List.mem_takeWhile_imp hmem
      simp [isDigitChar] at this
    · simp only [List.mem_cons, List.not_mem_nil] at hmem
      rcases hmem with h1 | h1 | h1 | h1
      · exact absurd h1 (by decide)
      · subst h1
        simp [isDigitChar] at ha
      · subst h1
        simp [isDigitChar] at hb
      · exact h1.elim
  · exact absurd h (by simp)

/-! ## Claim theorems -/

/-- C8: the Column Structure Detector is total (a Lean function), and its
hasValidStructure flag is true exactly when a date column position was found
and at least one of the cash-in or cash-out column positions was found; in
particular a valid structure always carries a date column and at least one
amount column. -/
theorem spec_C8 (items : List Item) :
    (detectColumnStructure items).hasValidStructure =
      ((detectColumnStructure items).dateColumn.isSome &&
        ((detectColumnStructure items).cashInColumn.isSome ||
          (detectColumnStructure items).cashOutColumn.isSome)) := rfl

/-- C9: the Row Grouper starts a new row exactly when the incoming fragment
differs in y from the y recorded for the current row (the y of the first
fragment of that row) by more than 10 units; on the sorted example fragments
with y values 250, 100.4, 100.2 and 100 it produces exactly two rows: the
fragment at 250 alone and the three fragments near 100 together. -/
theorem spec_C9 :
    (∀ (i : Item) (y : ℚ), startsNewRow i (some y) = decide (|i.y - y| > 10)) ∧
    groupItemsIntoRows [itemA250, itemB1004, itemC1002, itemD100] =
      [[itemA250], [itemB1004, itemC1002, itemD100]] :=
  ⟨fun _ _ => rfl, by decide⟩

/-- C6 counterexample: the input 0.01 is accepted and returned as exactly one
penny, so returned magnitudes are not strictly greater than 0.01; the claimed
half-open interval is wrong at its lower endpoint. -/
theorem spec_C6_cex : parseCurrencyAmount "0.01".toList = some 1 := by decide

/-- C6 (amended): an input is accepted only when its cleaned and
separator-resolved form matches 1 to 6 integer digits, a dot and exactly 2
decimal digits, and every returned value has magnitude in the closed interval
from 0.01 to 50000 (1 to 5000000 pennies). -/
theorem spec_C6 (raw : Str) (v : ℤ) (h : parseCurrencyAmount raw = some v) :
    (∃ r, resolveSeparators (currencyCleaned2 raw) = some r ∧
      matchStrictCurrency r = true ∧ v.natAbs = centsOfMatched r) ∧
    1 ≤ v.natAbs ∧ v.natAbs ≤ 5000000 := by
  obtain ⟨r, h1, h2, h3, h4, h5⟩ := parseCurrencyAmount_inv h
  exact ⟨⟨r, h1, h2, h3⟩, by omega, by omega⟩

/-- Witness for C6 at the concrete accepted input 123.45. -/
theorem spec_C6_witness :
    parseCurrencyAmount "123.45".toList = some 12345 ∧
      1 ≤ (12345 : ℤ).natAbs ∧ (12345 : ℤ).natAbs ≤ 5000000 := by
  have h : parseCurrencyAmount "123.45".toList = some 12345 := by decide
  exact ⟨h, (spec_C6 _ _ h).2⟩

/-- C5 counterexample: in 12,34 only a comma is present and exactly two digits
follow it, yet the amount is rejected instead of being read as 12.34: the
require-a-decimal-point precondition runs on the cleaned text before the
comma-as-decimal branch can fire. -/
theorem spec_C5_cex : parseCurrencyAmount "12,34".toList = none := by decide

/-- C5 (amended): when the cleaned text contains both a comma and a dot, the
commas are treated as thousands separators and stripped only when the dot is
the right-most of the two; when the comma is right-most the input is rejected
(the comma survives into the strict pattern check, which excludes commas).
When the cleaned text contains a comma and no dot the input is always
rejected, because the require-a-decimal-point precondition fails first, so
the comma-as-decimal branch is unreachable.  Concretely 1,234.56 parses to
1234.56 and 1.234,56 is rejected. -/
theorem spec_C5 :
    (∀ l : Str, l.contains ',' = true → l.contains '.' = true →
      (lastDotAfterComma l = true →
        resolveSeparators l = some (l.filter (fun c => !(c = ',')))) ∧
      (lastDotAfterComma l = false →
        resolveSeparators l = some l ∧ matchStrictCurrency l = false)) ∧
    (∀ raw : Str, (currencyCleaned1 raw).contains '.' = false →
      parseCurrencyAmount raw = none) ∧
    parseCurrencyAmount "1,234.56".toList = some 123456 ∧
    parseCurrencyAmount "1.234,56".toList = none := by
  refine ⟨?_, ?_, by decide, by decide⟩
  · intro l hc hd
    have hc' : ',' ∈ l := containsB_iff.1 hc
    have hd' : '.' ∈ l := containsB_iff.1 hd
    constructor
    · intro hlast
      simp [resolveSeparators, hc', hd', hlast]
    · intro hlast
      refine ⟨by simp [resolveSeparators, hc', hd', hlast], ?_⟩
      rw [← Bool.not_eq_true]
      intro hm
      rw [matchStrict_no_comma hm] at hc
      exact absurd hc (by simp)
  · intro raw hdot
    have hddd : hasDigitDotDigit (currencyCleaned1 raw) = false := by
      rw [← Bool.not_eq_true]
      intro hm
      rw [hasDigitDotDigit_dot _ hm] at hdot
      exact absurd hdot (by simp)
    unfold parseCurrencyAmount
    split
    · rfl
    · split
      · rfl
      · rename_i hcond
        rw [hddd] at hcond
        simp at hcond

/-- Witness for C5: the three separator cases at concrete inputs. -/
theorem spec_C5_witness :
    resolveSeparators "1,234.56".toList = some "1234.56".toList ∧
    (resolveSeparators "1.234,56".toList = some "1.234,56".toList ∧
      matchStrictCurrency "1.234,56".toList = false) ∧
    parseCurrencyAmount "12,34".toList = none := by
  refine ⟨?_, ?_, ?_⟩
  · have h := ((spec_C5.1 "1,234.56".toList (by decide) (by decide)).1 (by decide))
    rw [h]
    decide
  · exact (spec_C5.1 "1.234,56".toList (by decide) (by decide)).2 (by decide)
  · exact spec_C5.2.1 "12,34".toList (by decide)

/-- C1 counterexample: a one-page document whose page reads fine (a nonempty
fragment list) but shows no recognizable column structure does not contribute
zero transactions silently: processPDF surfaces a structural error to the
caller. -/
theorem spec_C1_cex :
    ([itemNoStruct] : List Item).isEmpty = false ∧
    (detectColumnStructure [itemNoStruct]).hasValidStructure = false ∧
    processPDF envW [[itemNoStruct]] = Except.error (pdfFailPrefix ++ noStructureMsg 1) := by
  exact ⟨by decide, by decide, by decide⟩

/-- C1 (amended): a page with no valid detected structure and no valid
carried-forward structure is not recovered locally; extractTransactionsWithSpatial
raises a page-level structural error, and processPDF propagates it to the
caller (with its prefix), in addition to the error raised when the page-reading
step yields no fragments. -/
theorem spec_C1 :
    (∀ (env : Env) (items : List Item) (page : ℕ),
      (detectColumnStructure items).hasValidStructure = false →
        extractTransactionsWithSpatial env items page none =
          Except.error (noStructureMsg page)) ∧
    (∀ (env : Env) (items : List Item) (page : ℕ) (m : ColumnInfo),
      m.hasValidStructure = false →
      (detectColumnStructure items).hasValidStructure = false →
        extractTransactionsWithSpatial env items page (some m) =
          Except.error (noStructureMsg page)) ∧
    (∀ (env : Env) (items : List Item) (rest : List (List Item)),
      items.isEmpty = false →
      (detectColumnStructure items).hasValidStructure = false →
        processPDF env (items :: rest) = Except.error (pdfFailPrefix ++ noStructureMsg 1)) := by
  refine ⟨?_, ?_, ?_⟩
  · intro env items page h
    simp [extractTransactionsWithSpatial, usedColumnInfo, h]
  · intro env items page m hm h
    simp [extractTransactionsWithSpatial, usedColumnInfo, hm, h]
  · intro env items rest hne h
    have h10 : (items :: rest).take 10 = items :: rest.take 9 := rfl
    simp [processPDF, h10, processPagesGo, hne, extractTransactionsWithSpatial, usedColumnInfo, h]

/-- Witness for C1 at the concrete structureless page. -/
theorem spec_C1_witness :
    extractTransactionsWithSpatial envW [itemNoStruct] 1 none =
      Except.error (noStructureMsg 1) ∧
    extractTransactionsWithSpatial envW [itemNoStruct] 3 (some ciA) ≠
      Except.error (noStructureMsg 3) ∧
    processPDF envW [[itemNoStruct]] = Except.error (pdfFailPrefix ++ noStructureMsg 1) := by
  refine ⟨spec_C1.1 envW [itemNoStruct] 1 (by decide), by decide, ?_⟩
  exact spec_C1.2.2 envW [itemNoStruct] [] (by decide) (by decide)

/-- C3 counterexample: the second page of the two-page example has a valid
column structure of its own, different from the carried structure of page one,
yet the orchestrator parses it with the carried structure and keeps carrying
the old structure: the fresh detection is neither preferred nor even
computed. -/
theorem spec_C3_cex :
    (detectColumnStructure pageC3b).hasValidStructure = true ∧
    detectColumnStructure pageC3b ≠ ciA ∧
    ciA.hasValidStructure = true ∧
    extractTransactionsWithSpatial envW pageC3b 2 (some ciA) = Except.ok ([], ciA) := by
  exact ⟨by decide, by decide, by decide, by decide⟩

/-- C3 (amended): the Column Structure Detector runs on a page only when
there is no valid carried-forward structure; a valid carried structure is
preferred over the fresh detection of the page and is also what the page
returns, so the carried structure, once valid, never changes. -/
theorem spec_C3 :
    (∀ (env : Env) (items : List Item) (page : ℕ) (m : ColumnInfo),
      m.hasValidStructure = true →
        extractTransactionsWithSpatial env items page (some m) =
          Except.ok (pageTransactions env items m page, m)) ∧
    (∀ (env : Env) (items : List Item) (page : ℕ) (m : ColumnInfo),
      m.hasValidStructure = false →
        extractTransactionsWithSpatial env items page (some m) =
          extractTransactionsWithSpatial env items page none) := by
  constructor
  · intro env items page m hm
    simp [extractTransactionsWithSpatial, usedColumnInfo, hm]
  · intro env items page m hm
    simp [extractTransactionsWithSpatial, usedColumnInfo, hm]

/-- Witness for C3: page two of the example, parsed under the carried
structure of page one. -/
theorem spec_C3_witness :
    extractTransactionsWithSpatial envW pageC3b 2 (some ciA) =
      Except.ok (pageTransactions envW pageC3b ciA 2, ciA) ∧
    pageTransactions envW pageC3b ciA 2 = [] := by
  exact ⟨spec_C3.1 envW pageC3b 2 ciA (by decide), by decide⟩

/-- Keys of transactions kept by the deduplication loop are unseen. -/
theorem removeDupGo_keyNotSeen :
    ∀ (ts : List Transaction) (seen : List Str),
      ∀ t ∈ removeDupGo ts seen, seen.contains (dedupKey t) = false
  | [], _ => by simp [removeDupGo]
  | t :: r, seen => by
    simp only [removeDupGo]
    split
    · exact fun b hb => removeDupGo_keyNotSeen r seen b hb
    · rename_i hns
      intro b hb
      rcases List.mem_cons.1 hb with hb | hb
      · subst hb
        simpa using hns
      · have := removeDupGo_keyNotSeen r (dedupKey t :: seen) b hb
        simp only [List.contains_cons, Bool.or_eq_false_iff] at this
        exact this.2

/-- The deduplication loop emits pairwise distinct keys. -/
theorem removeDupGo_pairwise :
    ∀ (ts : List Transaction) (seen : List Str),
      List.Pairwise (fun a b => dedupKey a ≠ dedupKey b) (removeDupGo ts seen)
  | [], _ => by simp [removeDupGo]
  | t :: r, seen => by
    simp only [removeDupGo]
    split
    · exact removeDupGo_pairwise r seen
    · refine List.Pairwise.cons ?_ (removeDupGo_pairwise r _)
      intro b hb hEq
      have := removeDupGo_keyNotSeen r (dedupKey t :: seen) b hb
      rw [← hEq] at this
      simp at this

/-- The deduplication loop only drops elements. -/
theorem removeDupGo_sublist :
    ∀ (ts : List Transaction) (seen : List Str), (removeDupGo ts seen).Sublist ts
  | [], _ => by simp [removeDupGo]
  | t :: r, seen => by
    simp only [removeDupGo]
    split
    · exact (removeDupGo_sublist r seen).cons t
    · exact (removeDupGo_sublist r _).cons₂ t

/-- C2 counterexample: the single-page document with two identical rows is
returned with both duplicate transactions: they share the composite
deduplication key, yet both appear in the final result (the unused helper
would have collapsed them to one). -/
theorem spec_C2_cex :
    dupOut.length = 2 ∧ dedupKey txD1 = dedupKey txD2 ∧
    (removeDuplicateTransactions dupOut).length = 1 := by
  exact ⟨by decide, by decide, by decide⟩

/-- C2 (amended): the helper removeDuplicateTransactions does deduplicate by
the composite key of date, amount and the first 20 description characters,
keeping first occurrences and only dropping elements; but processPDF never
invokes it, and the final returned transaction list of the concrete duplicate
document retains both transactions of one key. -/
theorem spec_C2 :
    (∀ ts : List Transaction,
      List.Pairwise (fun a b => dedupKey a ≠ dedupKey b) (removeDuplicateTransactions ts) ∧
      (removeDuplicateTransactions ts).Sublist ts) ∧
    processPDF envW [pageDup] = Except.ok [txD1, txD2] ∧
    dedupKey txD1 = dedupKey txD2 := by
  refine ⟨fun ts => ⟨removeDupGo_pairwise ts [], removeDupGo_sublist ts []⟩, by decide, by decide⟩

/-- The JavaScript OR of two nullable amounts yields one of them. -/
theorem jsOrAmt_eq_some {a b : Option ℤ} {w : ℤ} (h : jsOrAmt a b = some w) :
    a = some w ∨ b = some w := by
  unfold jsOrAmt at h
  split at h
  · exact Or.inr h
  · split at h
    · exact Or.inr h
    · exact Or.inl h

/-- A truthy nullable amount is a some. -/
theorem jsTruthyAmt_some {o : Option ℤ} (h : jsTruthyAmt o = true) : ∃ w, o = some w := by
  cases o with
  | none => simp [jsTruthyAmt] at h
  | some v => exact ⟨v, rfl⟩

/-- C7: the row decision rule.  When the cash-in window yields a valid amount,
any transaction built from the row is typed Income and carries the magnitude
of the cash-in value (including when the cash-out window also yielded one);
when only the cash-out window yields a valid amount the transaction is typed
Expense with its magnitude; when neither window yields an amount the row
produces no transaction. -/
theorem spec_C7 (env : Env) (row : List Item) (ci : ColumnInfo) (page : ℕ) :
    (cashInOf row ci = none → cashOutOf row ci = none →
      parseRowWithSpatial env row ci page = none) ∧
    (∀ (v : ℤ) (t : Transaction), cashInOf row ci = some v →
      parseRowWithSpatial env row ci page = some t →
      t.type = TxType.Income ∧ t.amount = v.natAbs) ∧
    (∀ (v : ℤ) (t : Transaction), cashInOf row ci = none → cashOutOf row ci = some v →
      parseRowWithSpatial env row ci page = some t →
      t.type = TxType.Expense ∧ t.amount = v.natAbs) := by
  refine ⟨?_, ?_, ?_⟩
  · intro h1 h2
    unfold parseRowWithSpatial
    cases hf : row.find? (fun it => hasDateToken it.text) with
    | none => rfl
    | some dateItem => simp [h1, h2, jsOrAmt, jsTruthyAmt]
  · intro v t hin hp
    have hv : v ≠ 0 := by
      obtain ⟨raw, hr⟩ := cashInOf_parse hin
      exact parseCurrencyAmount_ne_zero hr
    unfold parseRowWithSpatial at hp
    split at hp
    · exact absurd hp (by simp)
    rename_i dateItem hf
    rw [hin] at hp
    split at hp
    · split at hp
      · exact absurd hp (by simp)
      · injection hp with hp
        subst hp
        constructor
        · simp [jsTruthyAmt, hv]
        · simp [jsOrAmt, jsTruthyAmt, hv]
    · exact absurd hp (by simp)
  · intro v t hin hout hp
    have hv : v ≠ 0 := by
      obtain ⟨raw, hr⟩ := cashOutOf_parse hout
      exact parseCurrencyAmount_ne_zero hr
    unfold parseRowWithSpatial at hp
    split at hp
    · exact absurd hp (by simp)
    rename_i dateItem hf
    rw [hin, hout] at hp
    split at hp
    · split at hp
      · exact absurd hp (by simp)
      · injection hp with hp
        subst hp
        constructor
        · simp [jsTruthyAmt]
        · simp [jsOrAmt, jsTruthyAmt]
    · exact absurd hp (by simp)

/-- Witness for C7 at the concrete expense row of the duplicate page. -/
theorem spec_C7_witness :
    cashInOf [rowDate1, rowDesc1, rowAmt1] (detectColumnStructure pageDup) = none ∧
    cashOutOf [rowDate1, rowDesc1, rowAmt1] (detectColumnStructure pageDup) = some 1234 ∧
    txD1.type = TxType.Expense ∧ txD1.amount = (1234 : ℤ).natAbs := by
  have h1 : cashInOf [rowDate1, rowDesc1, rowAmt1] (detectColumnStructure pageDup) = none := by
    decide
  have h2 : cashOutOf [rowDate1, rowDesc1, rowAmt1] (detectColumnStructure pageDup) =
      some 1234 := by decide
  have h3 : parseRowWithSpatial envW [rowDate1, rowDesc1, rowAmt1]
      (detectColumnStructure pageDup) 1 = some txD1 := by decide
  have h4 := (spec_C7 envW [rowDate1, rowDesc1, rowAmt1]
    (detectColumnStructure pageDup) 1).2.2 1234 txD1 h1 h2 h3
  exact ⟨h1, h2, h4.1, h4.2⟩

/-- The cleaned description never exceeds 100 characters. -/
theorem cleanDescription_le_100 (l : Str) : (cleanDescription l).length ≤ 100 := by
  simp only [cleanDescription, List.length_take]
  omega

/-- Field invariants of any transaction built by the row parser: confidence is
0.9, the type is Income or Expense, the description is at most 100 characters,
and the amount is between 1 and 5000000 pennies. -/
theorem parseRow_fields {env : Env} {row : List Item} {ci : ColumnInfo} {page : ℕ}
    {t : Transaction} (h : parseRowWithSpatial env row ci page = some t) :
    t.confidence = 0.9 ∧ (t.type = TxType.Income ∨ t.type = TxType.Expense) ∧
    t.description.length ≤ 100 ∧ 1 ≤ t.amount ∧ t.amount ≤ 5000000 := by
  unfold parseRowWithSpatial at h
  split at h
  · exact absurd h (by simp)
  rename_i dateItem hf
  split at h
  · rename_i hcond
    split at h
    · exact absurd h (by simp)
    · rename_i date hdate
      injection h with h
      subst h
      simp only [Bool.and_eq_true] at hcond
      obtain ⟨htruthy, -⟩ := hcond
      obtain ⟨w, hw⟩ := jsTruthyAmt_some htruthy
      have hrange : 1 ≤ w.natAbs ∧ w.natAbs ≤ 5000000 := by
        rcases jsOrAmt_eq_some hw with hcase | hcase
        · obtain ⟨raw, hr⟩ := cashInOf_parse hcase
          exact parseCurrencyAmount_range hr
        · obtain ⟨raw, hr⟩ := cashOutOf_parse hcase
          exact parseCurrencyAmount_range hr
      refine ⟨rfl, ?_, cleanDescription_le_100 _, ?_, ?_⟩
      · dsimp only
        split
        · exact Or.inl rfl
        · exact Or.inr rfl
      · dsimp only
        rw [hw]
        simpa using hrange.1
      · dsimp only
        rw [hw]
        simpa using hrange.2
  · exact absurd h (by simp)

/-- C10: every transaction emitted by the spatial extraction of a page has an
amount between 0.01 and 50000 (1 to 5000000 pennies, hence strictly positive
even when the matched token parsed as negative, since the absolute value was
taken), a cleaned description of 3 to 100 characters, confidence exactly 0.9,
and type Income or Expense. -/
theorem spec_C10 (env : Env) (items : List Item) (page : ℕ) (master : Option ColumnInfo)
    (ts : List Transaction) (ci : ColumnInfo)
    (h : extractTransactionsWithSpatial env items page master = Except.ok (ts, ci)) :
    ∀ t ∈ ts, (1 ≤ t.amount ∧ t.amount ≤ 5000000) ∧
      (3 ≤ t.description.length ∧ t.description.length ≤ 100) ∧
      t.confidence = 0.9 ∧ (t.type = TxType.Income ∨ t.type = TxType.Expense) := by
  unfold extractTransactionsWithSpatial at h
  split at h
  · exact absurd h (by simp)
  injection h with h
  have hts : ts = pageTransactions env items (usedColumnInfo items master) page := by
    have := congrArg Prod.fst h
    exact this.symm
  subst hts
  intro t ht
  unfold pageTransactions at ht
  obtain ⟨rowl, hrow, hf⟩ := List.mem_filterMap.1 ht
  split at hf
  case h_1 t' hp =>
    split at hf
    case isTrue hvalid =>
      injection hf with hf
      subst hf
      obtain ⟨hconf, htype, hlen, hlo, hhi⟩ := parseRow_fields hp
      unfold isValidTransaction at hvalid
      simp only [Bool.and_eq_true, decide_eq_true_eq] at hvalid
      exact ⟨⟨hlo, hhi⟩, ⟨by omega, hlen⟩, hconf, htype⟩
    case isFalse => exact absurd hf (by simp)
  case h_2 => exact absurd hf (by simp)

/-- Unequal digit-class characters are unequal. -/
theorem digit_char_ne {c d : Char} (h : isDigitChar c = true) (hd : isDigitChar d = false) :
    c ≠ d := by
  intro he
  rw [he, hd] at h
  exact Bool.false_ne_true h

/-- A digit character is not whitespace. -/
theorem isWSChar_digit {c : Char} (h : isDigitChar c = true) : isWSChar c = false := by
  cases hb : isWSChar c with
  | false => rfl
  | true =>
    exfalso
    unfold isWSChar at hb
    simp only [Bool.or_eq_true, decide_eq_true_eq] at hb
    rcases hb with ((h1 | h1) | h1) | h1 <;> subst h1 <;> exact absurd h (by decide)

/-- The date character fixes do not touch digits or slashes. -/
theorem ocrFixDateChar_good {c : Char} (h : isDigitChar c = true ∨ c = '/') :
    ocrFixDateChar c = c := by
  rcases h with h | h
  · have k : ∀ d : Char, isDigitChar d = false → ¬c = d := fun d hd => digit_char_ne h hd
    unfold ocrFixDateChar
    rw [if_neg (by rintro (h1 | h1) <;> exact k _ (by decide) h1),
      if_neg (by rintro (h1 | h1 | h1) <;> exact k _ (by decide) h1),
      if_neg (k 'S' (by decide)), if_neg (k 'Z' (by decide)), if_neg (k 'G' (by decide))]
  · subst h
    decide

/-- The separator normalization does not touch digits or slashes. -/
theorem sepFix_good {c : Char} (h : isDigitChar c = true ∨ c = '/') :
    (if c = '-' ∨ c = '.' then '/' else c) = c := by
  rcases h with h | h
  · exact if_neg (by rintro (h1 | h1) <;> exact digit_char_ne h (by decide) h1)
  · subst h
    decide

/-- A map that fixes every element of a list is the identity on it. -/
theorem map_id_of {f : Char → Char} : ∀ {l : Str}, (∀ c ∈ l, f c = c) → l.map f = l := by
  intro l h
  induction l with
  | nil => rfl
  | cons c r ih =>
    simp only [List.map_cons]
    rw [h c (by simp), ih (fun x hx => h x (by simp [hx]))]

/-- A filter that keeps every element of a list is the identity on it. -/
theorem filter_id_of {p : Char → Bool} : ∀ {l : Str}, (∀ c ∈ l, p c = true) → l.filter p = l := by
  intro l h
  induction l with
  | nil => rfl
  | cons c r ih =>
    rw [List.filter_cons_of_pos (h c (by simp)), ih (fun x hx => h x (by simp [hx]))]

/-- dropWhile is the identity when no element satisfies the predicate. -/
theorem dropWhile_id_of {p : Char → Bool} {l : Str} (h : ∀ c ∈ l, p c = false) :
    l.dropWhile p = l := by
  cases l with
  | nil => rfl
  | cons c r =>
    rw [List.dropWhile_cons_of_neg]
    simp [h c (by simp)]

/-- takeWhile is the identity when every element satisfies the predicate. -/
theorem takeWhile_id_of {p : Char → Bool} : ∀ {l : Str}, (∀ c ∈ l, p c = true) → l.takeWhile p = l := by
  intro l h
  induction l with
  | nil => rfl
  | cons c r ih =>
    rw [List.takeWhile_cons_of_pos (h c (by simp)), ih (fun x hx => h x (by simp [hx]))]

/-- Trimming a whitespace-free string changes nothing. -/
theorem jsTrim_id_of {l : Str} (h : ∀ c ∈ l, isWSChar c = false) : jsTrim l = l := by
  unfold jsTrim
  rw [dropWhile_id_of h, dropWhile_id_of (fun c hc => h c (List.mem_reverse.1 hc)),
    List.reverse_reverse]

/-- The date cleaning pipeline is the identity on strings of digits and
slashes. -/
theorem cleanDateStr_id {l : Str} (h : ∀ c ∈ l, isDigitChar c = true ∨ c = '/') :
    cleanDateStr l = l := by
  have hws : ∀ c ∈ l, isWSChar c = false := by
    intro c hc
    rcases h c hc with hd | hd
    · exact isWSChar_digit hd
    · subst hd
      decide
  have s1 : jsTrim l = l := jsTrim_id_of hws
  have s2 : l.map ocrFixDateChar = l := map_id_of (fun c hc => ocrFixDateChar_good (h c hc))
  have s3 : l.filter (fun c => !isWSChar c) = l :=
    filter_id_of (fun c hc => by rw [hws c hc]; rfl)
  have s4 : l.map (fun c => if c = '-' ∨ c = '.' then '/' else c) = l :=
    map_id_of (fun c hc => sepFix_good (h c hc))
  have s5 : l.filter (fun c => isDigitChar c || c = '/') = l := by
    refine filter_id_of (fun c hc => ?_)
    rcases h c hc with hd | hd
    · simp [hd]
    · simp [hd]
  unfold cleanDateStr
  rw [s1, s2, s3, s4, s5]

/-- Appending one character to a digit string multiplies its value by ten. -/
theorem digitsToNat_append_one (l : Str) (c : Char) :
    digitsToNat (l ++ [c]) = digitsToNat l * 10 + digitVal c := by
  unfold digitsToNat
  rw [List.foldl_append]
  rfl

/-- digitChar emits a digit character for values below ten. -/
theorem digitChar_isDigit {k : ℕ} (h : k < 10) : isDigitChar (digitChar k) = true := by
  interval_cases k <;> decide

/-- digitVal inverts digitChar below ten. -/
theorem digitVal_digitChar {k : ℕ} (h : k < 10) : digitVal (digitChar k) = k := by
  interval_cases k <;> decide

/-- With enough fuel, the decimal rendering consists of digits, is nonempty,
and evaluates back to its input. -/
theorem natDigitsGo_spec : ∀ (fuel n : ℕ), n < fuel →
    (natDigitsGo fuel n).all isDigitChar = true ∧ digitsToNat (natDigitsGo fuel n) = n ∧
      natDigitsGo fuel n ≠ []
  | 0, n => by omega
  | fuel + 1, n => by
    intro h
    unfold natDigitsGo
    split
    · rename_i h10
      refine ⟨?_, ?_, by simp⟩
      · simp [List.all_cons, digitChar_isDigit h10]
      · simpa [digitsToNat] using digitVal_digitChar h10
    · rename_i h10
      have h10' : 10 ≤ n := by omega
      have hrec : n / 10 < fuel := by omega
      obtain ⟨ha, hb, hc⟩ := natDigitsGo_spec fuel (n / 10) hrec
      refine ⟨?_, ?_, by simp⟩
      · rw [List.all_append, ha]
        simpa using digitChar_isDigit (k := n % 10) (by omega)
      · rw [digitsToNat_append_one, hb, digitVal_digitChar (by omega)]
        omega

/-- The decimal rendering of a natural number is all digits. -/
theorem jsNatToStr_all_digits (n : ℕ) : (jsNatToStr n).all isDigitChar = true :=
  (natDigitsGo_spec (n + 1) n (by omega)).1

/-- The decimal rendering of a natural number evaluates back to it. -/
theorem digitsToNat_jsNatToStr (n : ℕ) : digitsToNat (jsNatToStr n) = n :=
  (natDigitsGo_spec (n + 1) n (by omega)).2.1

/-- The decimal rendering of a natural number is nonempty. -/
theorem jsNatToStr_ne_nil (n : ℕ) : jsNatToStr n ≠ [] :=
  (natDigitsGo_spec (n + 1) n (by omega)).2.2

/-- The two-digit padding emits only digits. -/
theorem pad2_all_digits (n : ℕ) : (pad2 n).all isDigitChar = true := by
  unfold pad2 padStart2Zero
  split
  · exact jsNatToStr_all_digits n
  · split
    · rw [List.all_cons, jsNatToStr_all_digits n]
      decide
    · decide

/-- The two-digit padding is nonempty. -/
theorem pad2_ne_nil (n : ℕ) : pad2 n ≠ [] := by
  unfold pad2 padStart2Zero
  split
  · exact jsNatToStr_ne_nil n
  · split <;> simp

/-- A leading zero does not change the decimal value. -/
theorem digitsToNat_cons_zero (l : Str) : digitsToNat ('0' :: l) = digitsToNat l := by
  unfold digitsToNat
  rw [List.foldl_cons]
  have e : 0 * 10 + digitVal '0' = 0 := by decide
  rw [e]

/-- The two-digit padding evaluates back to its input. -/
theorem digitsToNat_pad2 (n : ℕ) : digitsToNat (pad2 n) = n := by
  unfold pad2 padStart2Zero
  split
  · exact digitsToNat_jsNatToStr n
  · split
    · rw [digitsToNat_cons_zero]
      exact digitsToNat_jsNatToStr n
    · rename_i h1 h2
      exfalso
      cases hl : jsNatToStr n with
      | nil => exact jsNatToStr_ne_nil n hl
      | cons a r =>
        rw [hl] at h1 h2
        simp only [List.length_cons] at h1 h2
        omega

/-- parseInt on a nonempty digit string returns its decimal value. -/
theorem jsParseInt_digits {l : Str} (hall : l.all isDigitChar = true) (hne : l ≠ []) :
    jsParseInt l = some (digitsToNat l) := by
  unfold jsParseInt
  rw [takeWhile_id_of (List.all_eq_true.1 hall)]
  have he : l.isEmpty = false := by
    cases l with
    | nil => exact absurd rfl hne
    | cons a r => rfl
  simp [he]

/-- Splitting a string without the separator yields that string alone. -/
theorem splitChar_no_sep {sep : Char} : ∀ {l : Str}, (∀ c ∈ l, c ≠ sep) →
    splitChar sep l = [l] := by
  intro l h
  induction l with
  | nil => rfl
  | cons c r ih =>
    rw [splitChar, if_neg (h c (by simp)), ih (fun x hx => h x (by simp [hx]))]

/-- Splitting peels off a separator-free prefix before a separator. -/
theorem splitChar_append_sep {sep : Char} (b : Str) :
    ∀ {a : Str}, (∀ c ∈ a, c ≠ sep) → splitChar sep (a ++ sep :: b) = a :: splitChar sep b := by
  intro a ha
  induction a with
  | nil =>
    simp only [List.nil_append]
    rw [splitChar, if_pos rfl]
  | cons c r ih =>
    simp only [List.cons_append]
    rw [splitChar, if_neg (ha c (by simp)), ih (fun x hx => ha x (by simp [hx]))]

/-- Every month has at most 31 days. -/
theorem daysInMonth_le_31 (y m : ℕ) : daysInMonth y m ≤ 31 := by
  unfold daysInMonth
  split
  · split <;> omega
  · split <;> omega

/-- C4 counterexample: 5 July 1850 is a real calendar date rendered as the
canonical 05/07/1850, but normalizeDate rejects it (the source accepts only
years 1900 to 2100), so the round-trip fails. -/
theorem spec_C4_cex :
    isRealDate 5 7 1850 = true ∧
    normalizeDate ⟨2026, 10, 11⟩ "05/07/1850".toList = none :=
  ⟨by decide, by decide⟩

/-- C4 (amended): for every real calendar date with year between 1900 and
2100 that does not lie more than two years after the current date,
normalizeDate reproduces the canonical DD/MM/YYYY rendering unchanged. -/
theorem spec_C4 (now : CivilDate) (d m y : ℕ)
    (hreal : isRealDate d m y = true) (hy1 : 1900 ≤ y) (hy2 : y ≤ 2100)
    (hfut : civilDayNumber y m (d : ℤ) ≤
      civilDayNumber (now.year + 2) now.month (now.day : ℤ)) :
    normalizeDate now (renderDDMMYYYY d m y) = some (renderDDMMYYYY d m y) := by
  simp only [isRealDate, Bool.and_eq_true, decide_eq_true_eq] at hreal
  obtain ⟨⟨⟨hm1, hm2⟩, hd1⟩, hd2⟩ := hreal
  have hd31 : d ≤ 31 := le_trans hd2 (daysInMonth_le_31 y m)
  have hgoodd := List.all_eq_true.1 (pad2_all_digits d)
  have hgoodm := List.all_eq_true.1 (pad2_all_digits m)
  have hgoody := List.all_eq_true.1 (jsNatToStr_all_digits y)
  have hgood : ∀ c ∈ renderDDMMYYYY d m y, isDigitChar c = true ∨ c = '/' := by
    intro c hc
    unfold renderDDMMYYYY at hc
    simp only [List.mem_append, List.mem_cons] at hc
    rcases hc with hc | hc | hc | hc | hc
    · exact Or.inl (hgoodd c hc)
    · exact Or.inr hc
    · exact Or.inl (hgoodm c hc)
    · exact Or.inr hc
    · exact Or.inl (hgoody c hc)
  have hne : (renderDDMMYYYY d m y).isEmpty = false := by
    unfold renderDDMMYYYY
    cases hpd : pad2 d with
    | nil => exact absurd hpd (pad2_ne_nil d)
    | cons a r => rfl
  have hsplit : splitChar '/' (cleanDateStr (renderDDMMYYYY d m y)) =
      [pad2 d, pad2 m, jsNatToStr y] := by
    rw [cleanDateStr_id hgood]
    unfold renderDDMMYYYY
    rw [splitChar_append_sep _ (fun c hc => digit_char_ne (hgoodd c hc) (by decide)),
      splitChar_append_sep _ (fun c hc => digit_char_ne (hgoodm c hc) (by decide)),
      splitChar_no_sep (fun c hc => digit_char_ne (hgoody c hc) (by decide))]
  have hp1 : jsParseInt (pad2 d) = some d := by
    rw [jsParseInt_digits (pad2_all_digits d) (pad2_ne_nil d), digitsToNat_pad2]
  have hp2 : jsParseInt (pad2 m) = some m := by
    rw [jsParseInt_digits (pad2_all_digits m) (pad2_ne_nil m), digitsToNat_pad2]
  have hp3 : jsParseInt (jsNatToStr y) = some y := by
    rw [jsParseInt_digits (jsNatToStr_all_digits y) (jsNatToStr_ne_nil y),
      digitsToNat_jsNatToStr]
  have hyear : ¬(y < 100) := by omega
  have hswap : ¬(m > 12 ∧ d ≤ 12) := by omega
  have hrange : ¬(d < 1 ∨ d > 31 ∨ m < 1 ∨ m > 12 ∨ y < 1900 ∨ y > 2100) := by omega
  have hdim : ¬(daysInMonth y m < d) := by omega
  have hfut2 : ¬(civilDayNumber y m (d : ℤ) >
      civilDayNumber (now.year + 2) now.month (now.day : ℤ)) := by omega
  simp only [normalizeDate, hne, Bool.false_eq_true, if_false, hsplit, hp1, hp2, hp3,
    eq_false hyear, eq_false hswap, eq_false hrange, eq_false hdim, eq_false hfut2]

/-- Witness for C4 at the concrete date 5 July 2025 under the clock 11
October 2026. -/
theorem spec_C4_witness :
    normalizeDate ⟨2026, 10, 11⟩ "05/07/2025".toList = some ("05/07/2025".toList) := by
  have e : renderDDMMYYYY 5 7 2025 = "05/07/2025".toList := by decide
  have h := spec_C4 ⟨2026, 10, 11⟩ 5 7 2025 (by decide) (by decide) (by decide) (by decide)
  rw [e] at h
  exact h

/-- Witness for C10 at the concrete duplicate page. -/
theorem spec_C10_witness :
    (1 ≤ txD1.amount ∧ txD1.amount ≤ 5000000) ∧
    (3 ≤ txD1.description.length ∧ txD1.description.length ≤ 100) ∧
    txD1.confidence = 0.9 ∧ (txD1.type = TxType.Income ∨ txD1.type = TxType.Expense) := by
  have h : extractTransactionsWithSpatial envW pageDup 1 none =
      Except.ok ([txD1, txD2], usedColumnInfo pageDup none) := by decide
  exact spec_C10 envW pageDup 1 none [txD1, txD2] (usedColumnInfo pageDup none) h txD1
    (by simp)

end UMHC
